import Mathlib

set_option maxHeartbeats 2000000
set_option maxRecDepth 8192

/-!
Verification development for the chat-mcp tool-call engine
(src/chat_mcp/ai_provider.py, mcp_service.py, mcp_chat_handler.py).

The Python source is shallowly embedded: pure functions become Lean
functions, the mutable tool cache becomes explicit state passing, the
external collaborators (the LLM completion endpoint, the MCP tool-server
transport, wall-clock time) become explicit oracle parameters, and a
Python exception escaping a function is modelled by an explicit
`Except`/`PyOutcome` error value.
-/

/-! ## Character and string helpers (Python `str.strip`, `\s`, JSON whitespace) -/

/-- The left-brace character, kept out of string literals. -/
def lbraceC : Char := Char.ofNat 123

/-- The right-brace character, kept out of string literals. -/
def rbraceC : Char := Char.ofNat 125

/-- Python whitespace for `str.strip()` and the regex class `\s`
(ASCII subset; exotic Unicode whitespace is not modelled). -/
def pyIsSpace (c : Char) : Bool :=
  c == ' ' || c == '\t' || c == '\n' || c == '\r' || c == '\x0b' || c == '\x0c'

/-- Python `str.strip()` on a character list. -/
def pyStrip (l : List Char) : List Char :=
  ((l.dropWhile pyIsSpace).reverse.dropWhile pyIsSpace).reverse

/-- JSON whitespace as skipped by Python's `json` scanner. -/
def jsonWs (c : Char) : Bool :=
  c == ' ' || c == '\t' || c == '\n' || c == '\r'

/-- Drop leading JSON whitespace. -/
def skipJWs (l : List Char) : List Char := l.dropWhile jsonWs

/-! ## JSON values (model of what `json.loads` produces)

Numbers keep their source lexeme: no claim depends on numeric value and
this avoids floating-point semantics. -/

inductive Json : Type where
  | null : Json
  | bool : Bool → Json
  | num : String → Json
  | str : String → Json
  | arr : List Json → Json
  | obj : List (String × Json) → Json

/-- Python `dict` assignment `d[k] = v`: replace the value at the first
occurrence of the key, keeping its position, else append. -/
def setKV {α : Type} : List (String × α) → String → α → List (String × α)
  | [], k, v => [(k, v)]
  | (k0, v0) :: rest, k, v =>
    if k0 = k then (k0, v) :: rest else (k0, v0) :: setKV rest k v

/-- Python `dict` lookup `d.get(k)`. -/
def lookupS {α : Type} : List (String × α) → String → Option α
  | [], _ => none
  | (k0, v0) :: rest, k => if k0 = k then some v0 else lookupS rest k

/-! ## `json.loads` (Python's strict JSON decoder), fueled so that all
recursion is structural and kernel-reducible. -/

def hexVal (c : Char) : Option Nat :=
  if '0' ≤ c ∧ c ≤ '9' then some (c.toNat - 48)
  else if 'a' ≤ c ∧ c ≤ 'f' then some (c.toNat - 87)
  else if 'A' ≤ c ∧ c ≤ 'F' then some (c.toNat - 55)
  else none

def parseHex4 : List Char → Option (Nat × List Char)
  | a :: b :: c :: d :: rest =>
    match hexVal a, hexVal b, hexVal c, hexVal d with
    | some x, some y, some z, some w => some (((x * 16 + y) * 16 + z) * 16 + w, rest)
    | _, _, _, _ => none
  | _ => none

/-- Body of a JSON string after the opening quote: returns the decoded
characters and the input after the closing quote.  Raw control characters
are rejected (Python's default `strict=True`). -/
def parseJStr : Nat → List Char → Option (List Char × List Char)
  | 0, _ => none
  | _, [] => none
  | fuel + 1, c :: rest =>
    if c == '"' then some ([], rest)
    else if c == '\\' then
      match rest with
      | [] => none
      | e :: rest2 =>
        let esc : Option (Char × List Char) :=
          if e == '"' then some ('"', rest2)
          else if e == '\\' then some ('\\', rest2)
          else if e == '/' then some ('/', rest2)
          else if e == 'b' then some ('\x08', rest2)
          else if e == 'f' then some ('\x0c', rest2)
          else if e == 'n' then some ('\n', rest2)
          else if e == 'r' then some ('\r', rest2)
          else if e == 't' then some ('\t', rest2)
          else if e == 'u' then
            match parseHex4 rest2 with
            | some (n, rest3) => some (Char.ofNat n, rest3)
            | none => none
          else none
        match esc with
        | some (ch, rest3) =>
          match parseJStr fuel rest3 with
          | some (cs, rest4) => some (ch :: cs, rest4)
          | none => none
        | none => none
    else if c.toNat < 32 then none
    else
      match parseJStr fuel rest with
      | some (cs, rest2) => some (c :: cs, rest2)
      | none => none

def isDigitC (c : Char) : Bool := '0' ≤ c && c ≤ '9'

/-- Optional fraction part `.[0-9]+` of a JSON number. -/
def parseFrac (l : List Char) : List Char × List Char :=
  match l with
  | '.' :: t =>
    let ds := t.takeWhile isDigitC
    if ds.isEmpty then ([], l) else ('.' :: ds, t.dropWhile isDigitC)
  | _ => ([], l)

/-- Optional exponent part `[eE][+-]?[0-9]+` of a JSON number. -/
def parseExp (l : List Char) : List Char × List Char :=
  match l with
  | e :: t =>
    if e == 'e' || e == 'E' then
      let p : List Char × List Char :=
        match t with
        | '+' :: u => (['+'], u)
        | '-' :: u => (['-'], u)
        | _ => ([], t)
      let ds := p.1
      let t2 := p.2
      let digs := t2.takeWhile isDigitC
      if digs.isEmpty then ([], l)
      else (e :: (ds ++ digs), t2.dropWhile isDigitC)
    else ([], l)
  | [] => ([], l)

/-- Lexeme of a JSON number: `-?(0|[1-9][0-9]*)(\.[0-9]+)?([eE][+-]?[0-9]+)?`. -/
def parseNumLex (l : List Char) : Option (List Char × List Char) :=
  let p : List Char × List Char :=
    match l with
    | '-' :: t => (['-'], t)
    | _ => ([], l)
  let sgn := p.1
  match p.2 with
  | [] => none
  | c :: t =>
    if c == '0' then
      let f := parseFrac t
      let e := parseExp f.2
      some (sgn ++ ['0'] ++ f.1 ++ e.1, e.2)
    else if isDigitC c then
      let ds := (c :: t).takeWhile isDigitC
      let r2 := (c :: t).dropWhile isDigitC
      let f := parseFrac r2
      let e := parseExp f.2
      some (sgn ++ ds ++ f.1 ++ e.1, e.2)
    else none

/-- Strip an exact literal prefix, returning the remainder. -/
def dropLit : List Char → List Char → Option (List Char)
  | [], s => some s
  | p :: ps, c :: cs => if c == p then dropLit ps cs else none
  | _ :: _, [] => none

/-- One pass of JSON array elements (after `[` and leading whitespace,
first element must follow); `pv` parses one value at the current fuel. -/
def parseArrWith (pv : List Char → Option (Json × List Char)) :
    Nat → List Char → Option (List Json × List Char)
  | 0, _ => none
  | fuel + 1, s =>
    match pv s with
    | none => none
    | some (v, r1) =>
      match skipJWs r1 with
      | ',' :: r3 =>
        match parseArrWith pv fuel (skipJWs r3) with
        | some (vs, r4) => some (v :: vs, r4)
        | none => none
      | ']' :: r3 => some ([v], r3)
      | _ => none

/-- One pass of JSON object members (after `{` and leading whitespace,
first key must follow). -/
def parseObjWith (pv : List Char → Option (Json × List Char)) :
    Nat → List Char → Option (List (String × Json) × List Char)
  | 0, _ => none
  | fuel + 1, s =>
    match s with
    | '"' :: r0 =>
      match parseJStr (r0.length + 1) r0 with
      | none => none
      | some (key, r1) =>
        match skipJWs r1 with
        | ':' :: r3 =>
          match pv (skipJWs r3) with
          | none => none
          | some (v, r4) =>
            match skipJWs r4 with
            | ',' :: r6 =>
              match parseObjWith pv fuel (skipJWs r6) with
              | some (kvs, r7) => some ((String.mk key, v) :: kvs, r7)
              | none => none
            | c :: r6 =>
              if c == rbraceC then some ([(String.mk key, v)], r6) else none
            | [] => none
        | _ => none
    | _ => none

/-- One JSON value.  Python's `json.loads` also accepts the constants
`NaN`, `Infinity`, `-Infinity` by default; they are kept as number
lexemes. -/
def parseJValue : Nat → List Char → Option (Json × List Char)
  | 0, _ => none
  | fuel + 1, s =>
    match s with
    | [] => none
    | c :: rest =>
      if c == '"' then
        match parseJStr (rest.length + 1) rest with
        | some (cs, r) => some (Json.str (String.mk cs), r)
        | none => none
      else if c == lbraceC then
        match skipJWs rest with
        | [] => none
        | d :: t2 =>
          if d == rbraceC then some (Json.obj [], t2)
          else
            match parseObjWith (parseJValue fuel) fuel (d :: t2) with
            | some (kvs, r) =>
              some (Json.obj (kvs.foldl (fun acc kv => setKV acc kv.1 kv.2) []), r)
            | none => none
      else if c == '[' then
        match skipJWs rest with
        | ']' :: t2 => some (Json.arr [], t2)
        | t =>
          match parseArrWith (parseJValue fuel) fuel t with
          | some (vs, r) => some (Json.arr vs, r)
          | none => none
      else
        match dropLit "true".data s with
        | some r => some (Json.bool true, r)
        | none =>
          match dropLit "false".data s with
          | some r => some (Json.bool false, r)
          | none =>
            match dropLit "null".data s with
            | some r => some (Json.null, r)
            | none =>
              match parseNumLex s with
              | some (lex, r) => some (Json.num (String.mk lex), r)
              | none =>
                match dropLit "NaN".data s with
                | some r => some (Json.num "NaN", r)
                | none =>
                  match dropLit "Infinity".data s with
                  | some r => some (Json.num "Infinity", r)
                  | none =>
                    match dropLit "-Infinity".data s with
                    | some r => some (Json.num "-Infinity", r)
                    | none => none

/-- Python `json.loads`: leading/trailing whitespace allowed, exactly one
value, `none` models `json.JSONDecodeError`. -/
def json_loads (l : List Char) : Option Json :=
  let t := skipJWs l
  match parseJValue (2 * t.length + 8) t with
  | some (v, r) => if (skipJWs r).isEmpty then some v else none
  | none => none

/-! ## The tool-call block matcher

`parse_tool_use` uses
`re.findall(r"<tool_use>\s*<tool_name>([^<]+)</tool_name>\s*<parameters>([^<]*)</parameters>\s*</tool_use>", content, re.DOTALL)`.
Because every quantified piece of the pattern (`\s*`, `[^<]+`, `[^<]*`)
excludes `<` and the literal that follows each starts with `<`, matching
anchored at a position is deterministic, and `findall` is the left-to-right
scan that tries each position and resumes after each match. -/

def notLAngle (c : Char) : Bool := c != '<'

/-- Try to match one whole `<tool_use>` block anchored at the head of the
input; on success return (raw name group, raw parameters group, rest). -/
def matchToolUseAt (s : List Char) : Option (List Char × List Char × List Char) :=
  match dropLit "<tool_use>".data s with
  | none => none
  | some s1 =>
    match dropLit "<tool_name>".data (s1.dropWhile pyIsSpace) with
    | none => none
    | some s3 =>
      let name := s3.takeWhile notLAngle
      if name.isEmpty then none
      else
        match dropLit "</tool_name>".data (s3.dropWhile notLAngle) with
        | none => none
        | some s5 =>
          match dropLit "<parameters>".data (s5.dropWhile pyIsSpace) with
          | none => none
          | some s7 =>
            let params := s7.takeWhile notLAngle
            match dropLit "</parameters>".data (s7.dropWhile notLAngle) with
            | none => none
            | some s9 =>
              match dropLit "</tool_use>".data (s9.dropWhile pyIsSpace) with
              | none => none
              | some s11 => some (name, params, s11)

/-- `re.findall` for the block pattern: scan left to right, emit each
match's groups, resume after the match; fuel is the input length (every
step consumes at least one character). -/
def findToolUseBlocks : Nat → List Char → List (List Char × List Char)
  | 0, _ => []
  | fuel + 1, s =>
    match matchToolUseAt s with
    | some (nm, ps, rest) => (nm, ps) :: findToolUseBlocks fuel rest
    | none =>
      match s with
      | [] => []
      | _ :: t => findToolUseBlocks fuel t

/-! ## Data model (mcp_types.py) -/

structure MCPToolCall where
  id : String
  name : String
  /-- `arguments : Dict[str, Any]`; always a JSON object here because
  pydantic rejects any non-dict value (see `parse_tool_use`). -/
  arguments : List (String × Json)

structure ToolParseResult where
  id : String
  tool : MCPToolCall

/-! ## `parse_tool_use` (ai_provider.py lines 141-192)

The source also takes an `mcp_tools` list, but its lookup loop has no
effect (it only `break`s), so it is omitted.  A block whose stripped
parameters fail `json.loads` is skipped (`except json.JSONDecodeError:
continue`); a block whose parameters parse to a non-object JSON value
makes the `MCPToolCall(arguments=...)` pydantic constructor raise a
ValidationError which is NOT caught — modelled as `Except.error`. -/

def parseToolUseGo : Nat → List (List Char × List Char) → Except String (List ToolParseResult)
  | _, [] => Except.ok []
  | i, (nm, ps) :: rest =>
    match json_loads (pyStrip (pyStrip ps)) with
    | none => parseToolUseGo (i + 1) rest
    | some (Json.obj kvs) =>
      match parseToolUseGo (i + 1) rest with
      | Except.ok l =>
        Except.ok
          ({ id := "parse_" ++ toString i,
             tool :=
               { id := "call_" ++ toString i,
                 name := String.mk (pyStrip nm),
                 arguments := kvs } } :: l)
      | Except.error e => Except.error e
    | some _ => Except.error "ValidationError: arguments is not a valid dictionary"

def parse_tool_use (content : String) : Except String (List ToolParseResult) :=
  parseToolUseGo 0 (findToolUseBlocks content.data.length content.data)

/-- Indexed enumeration of a list starting at `n` (used to state which
match index each returned intent's id records). -/
def enumFromL {α : Type} : Nat → List α → List (Nat × α)
  | _, [] => []
  | n, a :: as => (n, a) :: enumFromL (n + 1) as

/-- What one matched block contributes to the parse result: `some` with
the id built from the block's index among ALL matches exactly when the
twice-stripped parameters text decodes to a JSON object. -/
def blockIntent (ip : Nat × (List Char × List Char)) :
    Option (String × String × List (String × Json)) :=
  match json_loads (pyStrip (pyStrip ip.2.2)) with
  | some (Json.obj kvs) =>
    some ("call_" ++ toString ip.1, String.mk (pyStrip ip.2.1), kvs)
  | _ => none

/-! ## Server / tool data model (mcp_types.py) -/

structure MCPServer where
  id : String
  name : String
  command : String
  args : List String
  env : Option (List (String × String)) := none
  disabled_tools : Option (List String) := none

structure MCPTool where
  id : String
  name : String
  description : String
  inputSchema : Json
  server_id : String
  server_name : String

/-! ## Tool invocation results (call result normalization, ai_provider.py)

The MCP SDK returns duck-typed items ("has text", "has data", plain dict,
anything else); `RawItem`/`RawResult` model those shapes and `callMCPTool`
normalizes them into content-item dictionaries. -/

inductive RawItem where
  | text (t : String)
  | image (data : String) (mimeType : Option String)
  | dict (j : Json)
  | other (s : String)

inductive RawResult where
  | withContent (items : List RawItem)
  | bare (s : String)

inductive ContentItem where
  | text (t : String)
  | image (data : String) (mimeType : String)
  | dict (j : Json)

def normalizeItem : RawItem → ContentItem
  | RawItem.text t => ContentItem.text t
  | RawItem.image d m => ContentItem.image d (m.getD "image/png")
  | RawItem.dict j => ContentItem.dict j
  | RawItem.other s => ContentItem.text s

def normalizeResult : RawResult → List ContentItem
  | RawResult.withContent items => items.map normalizeItem
  | RawResult.bare s => [ContentItem.text s]

structure MCPCallToolResponse where
  content : List ContentItem
  isError : Bool

/-! ## Argument cleaning and dispatch (`callMCPTool`, ai_provider.py 630-720) -/

/-- The argument-cleaning loop: drop `None`, empty/whitespace-only
strings, and empty lists; keep everything else in iteration order. -/
def cleanArguments : List (String × Json) → List (String × Json)
  | [] => []
  | (k, v) :: rest =>
    match v with
    | Json.null => cleanArguments rest
    | Json.str s =>
      if (pyStrip s.data).isEmpty then cleanArguments rest
      else (k, Json.str s) :: cleanArguments rest
    | Json.arr xs =>
      if xs.isEmpty then cleanArguments rest
      else (k, Json.arr xs) :: cleanArguments rest
    | w => (k, w) :: cleanArguments rest

/-- The predicate the cleaning loop keeps: a "meaningful" value in the
spec's words (not absent, not an empty/whitespace-only string, not an
empty list). -/
def meaningfulValue : Json → Bool
  | Json.null => false
  | Json.str s => !(pyStrip s.data).isEmpty
  | Json.arr xs => !xs.isEmpty
  | _ => true

/-- First catalog descriptor whose name equals the requested tool name. -/
def findTool (mcp_tools : List MCPTool) (tool_name : String) : Option MCPTool :=
  mcp_tools.find? (fun t => t.name == tool_name)

/-- `callMCPTool(tool_name, arguments, mcp_tools)`.  `configs` is the
process-wide server registry (`get_server_config`); `invoke` is the
external call-tool collaborator, whose `Except.error` carries the message
of any exception it raises.  The source wraps everything in
`try/except Exception` and returns an error-flagged response built from
`f"Error calling tool {tool_name}: {str(e)}"`, so this function is total:
it never raises to its caller. -/
def callMCPTool (configs : String → Option MCPServer)
    (invoke : MCPServer → String → List (String × Json) → Except String RawResult)
    (tool_name : String) (arguments : List (String × Json))
    (mcp_tools : List MCPTool) : MCPCallToolResponse :=
  let cleaned := cleanArguments arguments
  match findTool mcp_tools tool_name with
  | none =>
    { content :=
        [ContentItem.text
          ("Error calling tool " ++ tool_name ++ ": Tool not found: " ++ tool_name)],
      isError := true }
  | some tool =>
    match configs tool.server_id with
    | none =>
      { content :=
          [ContentItem.text
            ("Error calling tool " ++ tool_name ++ ": Server not found for tool: "
              ++ tool_name)],
        isError := true }
    | some server =>
      match invoke server tool_name cleaned with
      | Except.error e =>
        { content :=
            [ContentItem.text ("Error calling tool " ++ tool_name ++ ": " ++ e)],
          isError := true }
      | Except.ok raw => { content := normalizeResult raw, isError := false }

/-! ## Response registry (`upsert_mcp_tool_response`, ai_provider.py 284-322)

The source mutates the list in place and optionally fires a progress
callback; the list semantics are modelled functionally. -/

structure MCPToolResponse where
  id : String
  tool : MCPToolCall
  status : String
  content : Option (List ContentItem) := none
  error : Option String := none

def upsert_mcp_tool_response : List MCPToolResponse → MCPToolResponse → List MCPToolResponse
  | [], r => [r]
  | x :: xs, r =>
    if x.id = r.id then r :: xs else x :: upsert_mcp_tool_response xs r

/-! ## Tool catalog cache (`MCPService`, mcp_service.py) -/

structure MCPServiceState where
  toolCache : List (String × List MCPTool)
  cacheTtl : List (String × Int)

def emptyServiceState : MCPServiceState := { toolCache := [], cacheTtl := [] }

/-- `_get_server_key` computes `hashlib.md5(f"{command}:{':'.join(args)}")`;
the md5 digest is a deterministic function of this pre-image string, so the
pre-image itself serves as the cache key here (md5 collisions between
distinct pre-images are not modelled). -/
def get_server_key (server : MCPServer) : String :=
  server.command ++ ":" ++ String.intercalate ":" server.args

/-- `_cache_duration = 5 * 60` seconds. -/
def cache_duration : Int := 5 * 60

/-- `_is_cache_valid`: a TTL entry exists and `now - stored < 300`. -/
def is_cache_valid (st : MCPServiceState) (now : Int) (key : String) : Bool :=
  match lookupS st.cacheTtl key with
  | none => false
  | some t => decide (now - t < cache_duration)

/-- Cache-miss path of `list_tools`: invoke discovery (`_list_tools_impl`,
whose own failures are swallowed into an empty list, so the oracle is
total), filter the server's disabled tools (Python truthiness: `None` and
`[]` both skip the filter), store both maps with a fresh timestamp.  The
`Bool` in the result records that discovery was invoked. -/
def discoverAndStore (discover : MCPServer → List MCPTool) (now : Int)
    (st : MCPServiceState) (server : MCPServer) (key : String) :
    List MCPTool × MCPServiceState × Bool :=
  let tools0 := discover server
  let tools1 :=
    match server.disabled_tools with
    | some dt =>
      if dt.isEmpty then tools0
      else tools0.filter (fun t => !(dt.contains t.name))
    | none => tools0
  (tools1,
    { toolCache := setKV st.toolCache key tools1,
      cacheTtl := setKV st.cacheTtl key now },
    true)

/-- `MCPService.list_tools` (mcp_service.py 102-131): cache hit requires a
fresh TTL entry AND a stored tool list; otherwise rediscover. -/
def list_tools (discover : MCPServer → List MCPTool) (now : Int)
    (st : MCPServiceState) (server : MCPServer) :
    List MCPTool × MCPServiceState × Bool :=
  let key := get_server_key server
  match (if is_cache_valid st now key then lookupS st.toolCache key else none) with
  | some cached => (cached, st, false)
  | none => discoverAndStore discover now st server key

/-! ## Tool collector (`MCPToolCollector`, mcp_chat_handler.py) -/

/-- `_filter_disabled_tools`: `if not disabled_tools: return tools`
(Python truthiness makes `None` and `[]` both identity). -/
def filter_disabled_tools (tools : List MCPTool) (disabled : Option (List String)) :
    List MCPTool :=
  match disabled with
  | none => tools
  | some dt =>
    if dt.isEmpty then tools else tools.filter (fun t => !(dt.contains t.name))

/-- Loop body of `MCPToolCollector.collect_mcp_tools` for one server:
`list_tools` (cached) followed by the collector's own disabled-tool
filter. -/
def collectServerTools (discover : MCPServer → List MCPTool) (now : Int)
    (st : MCPServiceState) (server : MCPServer) : List MCPTool × MCPServiceState :=
  let r := list_tools discover now st server
  (filter_disabled_tools r.1 server.disabled_tools, r.2.1)

/-- `MCPToolCollector.collect_mcp_tools` over the enabled servers. -/
def collect_mcp_tools (discover : MCPServer → List MCPTool) (now : Int) :
    MCPServiceState → List MCPServer → List MCPTool × MCPServiceState
  | st, [] => ([], st)
  | st, server :: rest =>
    let p := collectServerTools discover now st server
    let q := collect_mcp_tools discover now p.2 rest
    (p.1 ++ q.1, q.2)

/-! ## Prompt augmentation (`build_system_prompt`, ai_provider.py 33-138) -/

/-- The literal `TOOL_USE_EXAMPLES` block (braces written `\x7b`/`\x7d`). -/
def TOOL_USE_EXAMPLES : String :=
  "\nYou have access to tools that you can use to help answer questions. \nWhen using a tool, format your request using XML tags:\n\n<tool_use>\n<tool_name>tool_name_here</tool_name>\n<parameters>\n\x7b\n  \"required_parameter\": \"value\",\n  \"optional_parameter\": \"value_if_needed\"\n\x7d\n</parameters>\n</tool_use>\n\nIMPORTANT RULES:\n1. Only call tools when you need additional information\n2. After receiving tool results (success or error), provide your final answer directly\n3. Do NOT retry failed tool calls or call the same tool multiple times\n4. For optional parameters: ONLY include them if you have a specific value - \n   do NOT pass empty strings \"\", null, or placeholder values\n5. When tool parameters are not mentioned or not needed, \n   simply omit them from the parameters object\n"

/-- Rough `str()` rendering of a JSON value (fueled; exact Python `repr`
punctuation is not modelled — nothing proved depends on it). -/
def jsonStrF : Nat → Json → String
  | _, Json.null => "None"
  | _, Json.bool true => "True"
  | _, Json.bool false => "False"
  | _, Json.num s => s
  | _, Json.str s => s
  | 0, Json.arr _ => "..."
  | 0, Json.obj _ => "..."
  | n + 1, Json.arr xs =>
    "[" ++ String.intercalate ", " (xs.map (jsonStrF n)) ++ "]"
  | n + 1, Json.obj kvs =>
    "\x7b" ++ String.intercalate ", " (kvs.map (fun kv => kv.1 ++ ": " ++ jsonStrF n kv.2)) ++ "\x7d"

/-- Parameter lines of `build_available_tools_prompt` for one tool.  The
source assumes each `param_info` is a dict and `required` a list of
names; malformed schemas (which would raise in Python) are rendered with
defaults here — no claim touches that corner. -/
def toolParamLines (schema : Json) : String :=
  match schema with
  | Json.obj kvs =>
    match lookupS kvs "properties" with
    | some (Json.obj props) =>
      let required : List String :=
        match lookupS kvs "required" with
        | some (Json.arr rs) =>
          rs.filterMap (fun j => match j with | Json.str s => some s | _ => none)
        | _ => []
      "  Parameters:\n" ++
        props.foldl (fun acc p =>
          let ptype :=
            match p.2 with
            | Json.obj ikv =>
              match lookupS ikv "type" with
              | some (Json.str s) => s
              | some j => jsonStrF 8 j
              | none => "string"
            | _ => "string"
          let pdesc :=
            match p.2 with
            | Json.obj ikv =>
              match lookupS ikv "description" with
              | some (Json.str s) => s
              | some j => jsonStrF 8 j
              | none => ""
            | _ => ""
          let req := if required.contains p.1 then " (required)" else ""
          acc ++ "    - " ++ p.1 ++ " (" ++ ptype ++ ")" ++ req ++ ": " ++ pdesc ++ "\n")
          ""
    | _ => ""
  | _ => ""

def build_available_tools_prompt (tools : List MCPTool) : String :=
  if tools.isEmpty then ""
  else
    "Available tools:\n\n" ++
      tools.foldl (fun acc tool =>
        acc ++ "- **" ++ tool.name ++ "**: " ++ tool.description ++ "\n" ++
          toolParamLines tool.inputSchema ++ "\n") ""

/-- `build_system_prompt`: with a non-empty catalog the template
`"{{ USER_SYSTEM_PROMPT }}\n\n{{ TOOL_USE_EXAMPLES }}\n\n{{ AVAILABLE_TOOLS }}"`
with its three markers replaced — i.e. the concatenation below (marker
strings occurring inside the user prompt itself are not modelled). -/
def build_system_prompt (user_system_prompt : String) (tools : List MCPTool) : String :=
  if tools.isEmpty then user_system_prompt
  else
    user_system_prompt ++ "\n\n" ++ TOOL_USE_EXAMPLES ++ "\n\n" ++
      build_available_tools_prompt tools

/-! ## Chat data model and `AIProvider.completions` (ai_provider.py 457-613) -/

/-- The metadata keys this development observes on a message (each
`Option` models presence of the key in the Python dict). -/
structure MsgMetadata where
  tool_calls_detected : Option Nat := none
  error : Option String := none
  tool_name : Option String := none
  is_error : Option Bool := none
  message_type : Option String := none

structure ChatMessage where
  role : String
  content : String
  metadata : Option MsgMetadata := none
  tool_calls : Option (List MCPToolCall) := none
  tool_call_id : Option String := none

structure ChatResponse where
  message : ChatMessage
  /-- `metrics["status"]` of the response. -/
  metricsStatus : String := ""

/-- System messages get the augmented prompt when MCP tools are present
(`completions`, lines 509-527); the result is the processed
`(role, content)` list handed to the completion backend. -/
def processMessages (msgs : List ChatMessage) (mcp_tools : List MCPTool) :
    List (String × String) :=
  msgs.map (fun m =>
    if m.role == "system" && !mcp_tools.isEmpty then
      ("system", build_system_prompt m.content mcp_tools)
    else (m.role, m.content))

/-- The error response built by `completions`' blanket `except Exception`
(also reached when `parse_tool_use` raises a pydantic ValidationError
inside `_sync_completion`). -/
def completionErrorResponse (e : String) : ChatResponse :=
  { message :=
      { role := "assistant",
        content := "抱歉，AI调用失败：" ++ e,
        metadata := some { error := some e } },
    metricsStatus := "ai_completion_error" }

/-- The assistant response built by `_sync_completion` from the raw
completion text: metadata records `tool_calls_detected`. -/
def completionSuccessResponse (content : String) (tool_calls : List ToolParseResult) :
    ChatResponse :=
  { message :=
      { role := "assistant",
        content := content,
        metadata := some { tool_calls_detected := some tool_calls.length },
        tool_calls :=
          if tool_calls.isEmpty then none
          else some (tool_calls.map (fun t => t.tool)) },
    metricsStatus := "ai_completion_success" }

/-- `AIProvider.completions` → `_sync_completion`.  `llm` is the external
completion collaborator (one call per invocation); its `Except.error`
models a raised exception, caught by `completions` and turned into an
error response.  The `parse_tool_use` call inside `_sync_completion` may
raise (non-dict arguments); that too is caught by `completions`. -/
def run_completions (llm : List (String × String) → Except String String)
    (msgs : List ChatMessage) (mcp_tools : List MCPTool) : ChatResponse :=
  match llm (processMessages msgs mcp_tools) with
  | Except.error e => completionErrorResponse e
  | Except.ok content =>
    match parse_tool_use content with
    | Except.error e => completionErrorResponse e
    | Except.ok tool_calls => completionSuccessResponse content tool_calls

/-! ## The orchestrator (`complete_mcp_workflow`, ai_provider.py 759-900) -/

/-- Outcome of running a Python function that may raise. -/
inductive PyOutcome (α : Type) where
  | ok (a : α)
  | exn (e : String)

/-- `execute_mcp_tool_calls`: dispatch each parsed intent in order (the
source awaits them sequentially here; `callMCPTool` never raises). -/
def execute_mcp_tool_calls (configs : String → Option MCPServer)
    (invoke : MCPServer → String → List (String × Json) → Except String RawResult)
    (tool_calls : List ToolParseResult) (mcp_tools : List MCPTool) :
    List MCPCallToolResponse :=
  tool_calls.map (fun tc => callMCPTool configs invoke tc.tool.name tc.tool.arguments mcp_tools)

/-- `result_text` accumulation for one tool result: text items contribute
their text, other items their `str()` rendering. -/
def resultText (items : List ContentItem) : String :=
  items.foldl (fun acc it =>
    match it with
    | ContentItem.text t => acc ++ t
    | ContentItem.image d m => acc ++ "type: image, data: " ++ d ++ ", mimeType: " ++ m
    | ContentItem.dict j => acc ++ jsonStrF 32 j) ""

/-- The observation-style message appended for one intent/result pair
(role `"user"`, lines 866-879). -/
def toolResultMessage (tc : ToolParseResult) (result : MCPCallToolResponse) : ChatMessage :=
  { role := "user",
    content :=
      "工具调用结果：\n工具名称：" ++ tc.tool.name ++ "\n执行状态：" ++
        (if result.isError then "失败" else "成功") ++ "\n结果内容：\n" ++
        resultText result.content,
    metadata :=
      some { tool_name := some tc.tool.name,
             is_error := some result.isError,
             message_type := some "tool_result" } }

/-- Transcript growth of one round that produced tool calls: append the
assistant completion message, then one observation message per
intent/result pair. -/
def appendToolMessages (configs : String → Option MCPServer)
    (invoke : MCPServer → String → List (String × Json) → Except String RawResult)
    (mcp_tools : List MCPTool) (msgs : List ChatMessage) (resp : ChatResponse)
    (tool_calls : List ToolParseResult) : List ChatMessage :=
  msgs ++ [resp.message] ++
    List.zipWith toolResultMessage tool_calls
      (execute_mcp_tool_calls configs invoke tool_calls mcp_tools)

/-- The `for iteration in range(max_iterations)` loop.  The second result
component counts model-completion calls issued.  With fuel exhausted the
source returns the previous round's `llm_response`; if no round ever ran
(`max_iterations = 0`) the final `return llm_response` raises
`UnboundLocalError` — modelled by `PyOutcome.exn`.  A `parse_tool_use`
exception at line 833 would also propagate (first match arm). -/
def workflowLoop (llm : List (String × String) → Except String String)
    (configs : String → Option MCPServer)
    (invoke : MCPServer → String → List (String × Json) → Except String RawResult)
    (mcp_tools : List MCPTool) :
    Nat → List ChatMessage → Option ChatResponse → PyOutcome ChatResponse × Nat
  | 0, _, last =>
    (match last with
     | some r => PyOutcome.ok r
     | none =>
       PyOutcome.exn "UnboundLocalError: local variable llm_response referenced before assignment",
     0)
  | fuel + 1, msgs, _ =>
    match parse_tool_use (run_completions llm msgs mcp_tools).message.content with
    | Except.error e => (PyOutcome.exn e, 1)
    | Except.ok [] => (PyOutcome.ok (run_completions llm msgs mcp_tools), 1)
    | Except.ok (tc :: tcs) =>
      let next := workflowLoop llm configs invoke mcp_tools fuel
        (appendToolMessages configs invoke mcp_tools msgs
          (run_completions llm msgs mcp_tools) (tc :: tcs))
        (some (run_completions llm msgs mcp_tools))
      (next.1, next.2 + 1)

/-- One round's transcript transformation (used to name the transcript a
given round sees). -/
def workflowStep (llm : List (String × String) → Except String String)
    (configs : String → Option MCPServer)
    (invoke : MCPServer → String → List (String × Json) → Except String RawResult)
    (mcp_tools : List MCPTool) (msgs : List ChatMessage) : List ChatMessage :=
  match parse_tool_use (run_completions llm msgs mcp_tools).message.content with
  | Except.ok tcs =>
    appendToolMessages configs invoke mcp_tools msgs (run_completions llm msgs mcp_tools) tcs
  | Except.error _ => msgs

/-- The tool catalog `complete_mcp_workflow` assembles: the collector is
constructed fresh inside the function, so its cache starts empty. -/
def collectWorkflowTools (discover : MCPServer → List MCPTool) (now : Int)
    (enabled_servers : List MCPServer) : List MCPTool :=
  (collect_mcp_tools discover now emptyServiceState enabled_servers).1

/-- `complete_mcp_workflow(messages, enabled_servers, model, max_iterations)`:
collect the catalog, then drive the round loop; returns the outcome plus
the number of model-completion calls issued. -/
def complete_mcp_workflow (llm : List (String × String) → Except String String)
    (configs : String → Option MCPServer)
    (invoke : MCPServer → String → List (String × Json) → Except String RawResult)
    (discover : MCPServer → List MCPTool) (now : Int)
    (messages : List ChatMessage) (enabled_servers : List MCPServer)
    (max_iterations : Nat) : PyOutcome ChatResponse × Nat :=
  workflowLoop llm configs invoke (collectWorkflowTools discover now enabled_servers)
    max_iterations messages none

/-- `tool_calls_detected` metadata read off a response (the marker that
distinguishes a genuine no-tool-calls termination). -/
def detectedCount (r : ChatResponse) : Option Nat :=
  r.message.metadata.bind (fun m => m.tool_calls_detected)

/-! ## Concrete instances used by counterexamples and witnesses -/

/-- Two blocks: the first with malformed JSON parameters, the second valid. -/
def exC1Text : String :=
  "<tool_use><tool_name>a</tool_name><parameters>\x7b</parameters></tool_use><tool_use><tool_name>b</tool_name><parameters>\x7b\x7d</parameters></tool_use>"

/-- A block whose parameters are a valid JSON object containing `<`. -/
def exC9Text : String :=
  "<tool_use><tool_name>q</tool_name><parameters>\x7b\"q\": \"a<b\"\x7d</parameters></tool_use>"

/-- A single well-formed block with empty-object parameters. -/
def exBlockText : String :=
  "<tool_use><tool_name>t</tool_name><parameters>\x7b\x7d</parameters></tool_use>"

def exParse0 : ToolParseResult :=
  { id := "parse_0", tool := { id := "call_0", name := "t", arguments := [] } }

def exToolCall : MCPToolCall := { id := "call_0", name := "t", arguments := [] }

def exResp1 : MCPToolResponse := { id := "1", tool := exToolCall, status := "invoking" }

def exResp2 : MCPToolResponse := { id := "2", tool := exToolCall, status := "done" }

def exServerA : MCPServer :=
  { id := "A", name := "A", command := "cmd", args := [], disabled_tools := some ["a"] }

def exToolA : MCPTool :=
  { id := "1", name := "a", description := "", inputSchema := Json.obj [],
    server_id := "A", server_name := "A" }

def exToolB : MCPTool :=
  { id := "2", name := "b", description := "", inputSchema := Json.obj [],
    server_id := "A", server_name := "A" }

def exDiscoverAB : MCPServer → List MCPTool := fun _ => [exToolA, exToolB]

def exDiscover0 : MCPServer → List MCPTool := fun _ => []

def exConfigs0 : String → Option MCPServer := fun _ => none

def exInvoke0 : MCPServer → String → List (String × Json) → Except String RawResult :=
  fun _ _ _ => Except.error "no transport"

/-- A completion oracle that always answers plain prose. -/
def exLlmDone : List (String × String) → Except String String :=
  fun _ => Except.ok "done"

/-- A completion oracle that always requests a tool call. -/
def exLlmTools : List (String × String) → Except String String :=
  fun _ => Except.ok exBlockText

/-- A cache state holding a fresh entry for key `"cmd:"`. -/
def exStC6 : MCPServiceState :=
  { toolCache := [("cmd:", [exToolB])], cacheTtl := [("cmd:", 0)] }

/-- A server with the same command/args as the `exStC6` entry but no
disabled set. -/
def exServerPlain : MCPServer :=
  { id := "B", name := "B", command := "cmd", args := [] }

/-! ## Helper lemmas -/

theorem mem_takeWhile_pred {α : Type} (p : α → Bool) :
    ∀ (l : List α) (a : α), a ∈ l.takeWhile p → p a := by
  intro l
  induction l with
  | nil => intro a h; simp [List.takeWhile] at h
  | cons x xs ih =>
    intro a h
    rw [List.takeWhile_cons] at h
    by_cases hp : p x
    · rw [if_pos hp] at h
      rcases List.mem_cons.mp h with h | h
      · exact h ▸ hp
      · exact ih a h
    · rw [if_neg hp] at h
      simp at h

theorem lookupS_setKV_self {α : Type} :
    ∀ (l : List (String × α)) (k : String) (v : α), lookupS (setKV l k v) k = some v := by
  intro l
  induction l with
  | nil => intro k v; simp [setKV, lookupS]
  | cons kv rest ih =>
    intro k v
    obtain ⟨k0, v0⟩ := kv
    by_cases h : k0 = k
    · rw [setKV, if_pos h, lookupS, if_pos h]
    · rw [setKV, if_neg h, lookupS, if_neg h]
      exact ih k v

theorem contains_eq_memS (l : List String) (a : String) :
    l.contains a = true ↔ a ∈ l := by
  induction l with
  | nil => simp
  | cons x xs ih =>
    simp only [List.contains_cons, Bool.or_eq_true, beq_iff_eq, List.mem_cons, ih]

theorem cleanArguments_eq_filter :
    ∀ l : List (String × Json),
      cleanArguments l = l.filter (fun kv => meaningfulValue kv.2) := by
  intro l
  induction l with
  | nil => rfl
  | cons kv rest ih =>
    obtain ⟨k, v⟩ := kv
    cases v with
    | null => simpa [cleanArguments, meaningfulValue, List.filter_cons] using ih
    | str s =>
      by_cases h : (pyStrip s.data).isEmpty
      · simp [cleanArguments, meaningfulValue, h, List.filter_cons, ih]
      · simp [cleanArguments, meaningfulValue, h, List.filter_cons, ih]
    | arr xs =>
      by_cases h : xs.isEmpty
      · simp [cleanArguments, meaningfulValue, h, List.filter_cons, ih]
      · simp [cleanArguments, meaningfulValue, h, List.filter_cons, ih]
    | bool b => simpa [cleanArguments, meaningfulValue, List.filter_cons] using ih
    | num s => simpa [cleanArguments, meaningfulValue, List.filter_cons] using ih
    | obj kvs => simpa [cleanArguments, meaningfulValue, List.filter_cons] using ih

theorem upsert_id_mem {l : List MCPToolResponse} {r : MCPToolResponse} {x : String}
    (h : x ∈ (upsert_mcp_tool_response l r).map (fun y => y.id)) :
    x = r.id ∨ x ∈ l.map (fun y => y.id) := by
  induction l with
  | nil =>
    simp [upsert_mcp_tool_response] at h
    exact Or.inl h
  | cons y ys ih =>
    by_cases hy : y.id = r.id
    · rw [upsert_mcp_tool_response, if_pos hy] at h
      simp only [List.map_cons, List.mem_cons] at h
      rcases h with h | h
      · exact Or.inl h
      · exact Or.inr (by simp only [List.map_cons, List.mem_cons]; exact Or.inr h)
    · rw [upsert_mcp_tool_response, if_neg hy] at h
      simp only [List.map_cons, List.mem_cons] at h
      rcases h with h | h
      · exact Or.inr (by simp [h])
      · rcases ih h with h2 | h2
        · exact Or.inl h2
        · exact Or.inr (by simp only [List.map_cons, List.mem_cons]; exact Or.inr h2)

theorem upsert_append {l : List MCPToolResponse} {r : MCPToolResponse}
    (h : r.id ∉ l.map (fun x => x.id)) :
    upsert_mcp_tool_response l r = l ++ [r] := by
  induction l with
  | nil => rfl
  | cons x xs ih =>
    simp only [List.map_cons, List.mem_cons] at h
    push_neg at h
    rw [upsert_mcp_tool_response, if_neg (fun he => h.1 he.symm)]
    rw [ih h.2]
    simp

theorem upsert_replace {r x : MCPToolResponse} :
    ∀ (a b : List MCPToolResponse), x.id = r.id → (∀ y ∈ a, y.id ≠ r.id) →
      upsert_mcp_tool_response (a ++ x :: b) r = a ++ r :: b := by
  intro a
  induction a with
  | nil =>
    intro b hx _
    simp only [List.nil_append]
    rw [upsert_mcp_tool_response, if_pos hx]
  | cons y a' ih =>
    intro b hx hn
    simp only [List.cons_append]
    rw [upsert_mcp_tool_response, if_neg (hn y (by simp))]
    rw [ih b hx (fun z hz => hn z (by simp [hz]))]

theorem upsert_nodup {l : List MCPToolResponse} {r : MCPToolResponse}
    (h : (l.map (fun x => x.id)).Nodup) :
    ((upsert_mcp_tool_response l r).map (fun x => x.id)).Nodup := by
  induction l with
  | nil => simp [upsert_mcp_tool_response]
  | cons x xs ih =>
    simp only [List.map_cons, List.nodup_cons] at h
    by_cases hx : x.id = r.id
    · rw [upsert_mcp_tool_response, if_pos hx]
      simp only [List.map_cons, List.nodup_cons]
      exact ⟨hx ▸ h.1, h.2⟩
    · rw [upsert_mcp_tool_response, if_neg hx]
      simp only [List.map_cons, List.nodup_cons]
      refine ⟨?_, ih h.2⟩
      intro hmem
      rcases upsert_id_mem hmem with h2 | h2
      · exact hx h2
      · exact h.1 h2

/-! ## Claim theorems -/

/-- C7: before invoking the tool, the dispatcher removes from the
argument map exactly the keys whose value is `None`, an empty or
whitespace-only string, or an empty list (the cleaning loop equals a
filter by `meaningfulValue`, keeping order), and the invocation receives
exactly the cleaned map. -/
theorem spec_C7 (configs : String → Option MCPServer)
    (invoke : MCPServer → String → List (String × Json) → Except String RawResult)
    (tool_name : String) (arguments : List (String × Json)) (mcp_tools : List MCPTool) :
    (cleanArguments arguments = arguments.filter (fun kv => meaningfulValue kv.2)) ∧
    (∀ kv, kv ∈ cleanArguments arguments ↔ kv ∈ arguments ∧ meaningfulValue kv.2 = true) ∧
    (∀ tool server raw, findTool mcp_tools tool_name = some tool →
      configs tool.server_id = some server →
      invoke server tool_name (cleanArguments arguments) = Except.ok raw →
      callMCPTool configs invoke tool_name arguments mcp_tools =
        { content := normalizeResult raw, isError := false }) := by
  refine ⟨cleanArguments_eq_filter arguments, ?_, ?_⟩
  · intro kv
    rw [cleanArguments_eq_filter arguments, List.mem_filter]
  · intro tool server raw hf hc hi
    simp only [callMCPTool, hf, hc, hi]

/-- C7 witness: a whitespace-only string, a `null` and an empty list are
dropped; the other pairs survive unchanged and in order. -/
theorem spec_C7_witness :
    [("a", Json.str " "), ("b", Json.num "1"), ("c", Json.null),
        ("d", Json.arr []), ("e", Json.str "x")].filter
        (fun kv => meaningfulValue kv.2) =
      [("b", Json.num "1"), ("e", Json.str "x")] := by
  have h := (spec_C7 exConfigs0 exInvoke0 "t"
    [("a", Json.str " "), ("b", Json.num "1"), ("c", Json.null),
      ("d", Json.arr []), ("e", Json.str "x")] []).1
  rw [← h]
  rfl

/-- C8: `upsert` with a fresh id appends at the end; with an existing id
it replaces the first record carrying that id in place, leaving every
other record and the length unchanged; and pairwise-distinct ids are
preserved. -/
theorem spec_C8 (l : List MCPToolResponse) (r : MCPToolResponse) :
    (r.id ∉ l.map (fun x => x.id) → upsert_mcp_tool_response l r = l ++ [r]) ∧
    (∀ a x b, l = a ++ x :: b → x.id = r.id → (∀ y ∈ a, y.id ≠ r.id) →
      upsert_mcp_tool_response l r = a ++ r :: b) ∧
    ((l.map (fun x => x.id)).Nodup → ((upsert_mcp_tool_response l r).map (fun x => x.id)).Nodup) := by
  refine ⟨upsert_append, ?_, upsert_nodup⟩
  intro a x b hl hx hn
  subst hl
  exact upsert_replace a b hx hn

/-- C8 witness: upserting a fresh id appends. -/
theorem spec_C8_witness :
    upsert_mcp_tool_response [exResp1] exResp2 = [exResp1, exResp2] :=
  (spec_C8 [exResp1] exResp2).1 (by decide)

/-- C4: dispatch is total and error-flagging — an unknown tool name, an
unregistered server id, and an exception from the invocation collaborator
each yield an error-flagged text response (with the exception message in
the last case); `callMCPTool` returns a plain value in every case, never
raising to its caller. -/
theorem spec_C4 (configs : String → Option MCPServer)
    (invoke : MCPServer → String → List (String × Json) → Except String RawResult)
    (tool_name : String) (arguments : List (String × Json)) (mcp_tools : List MCPTool) :
    (findTool mcp_tools tool_name = none →
      callMCPTool configs invoke tool_name arguments mcp_tools =
        { content :=
            [ContentItem.text
              ("Error calling tool " ++ tool_name ++ ": Tool not found: " ++ tool_name)],
          isError := true }) ∧
    (∀ tool, findTool mcp_tools tool_name = some tool →
      configs tool.server_id = none →
      callMCPTool configs invoke tool_name arguments mcp_tools =
        { content :=
            [ContentItem.text
              ("Error calling tool " ++ tool_name ++ ": Server not found for tool: "
                ++ tool_name)],
          isError := true }) ∧
    (∀ tool server e, findTool mcp_tools tool_name = some tool →
      configs tool.server_id = some server →
      invoke server tool_name (cleanArguments arguments) = Except.error e →
      callMCPTool configs invoke tool_name arguments mcp_tools =
        { content :=
            [ContentItem.text ("Error calling tool " ++ tool_name ++ ": " ++ e)],
          isError := true }) := by
  refine ⟨?_, ?_, ?_⟩
  · intro h
    simp only [callMCPTool, h]
  · intro tool hf hc
    simp only [callMCPTool, hf, hc]
  · intro tool server e hf hc hi
    simp only [callMCPTool, hf, hc, hi]

/-- C4 witness: dispatching a name absent from the catalog returns the
tool-not-found error response. -/
theorem spec_C4_witness :
    callMCPTool exConfigs0 exInvoke0 "t" [] [] =
      { content := [ContentItem.text "Error calling tool t: Tool not found: t"],
        isError := true } :=
  (spec_C4 exConfigs0 exInvoke0 "t" [] []).1 rfl

theorem discoverAndStore_filtered {discover : MCPServer → List MCPTool} {now : Int}
    {st : MCPServiceState} {server : MCPServer} {key : String} {dt : List String}
    (h : server.disabled_tools = some dt) :
    ∀ t ∈ (discoverAndStore discover now st server key).1, t.name ∉ dt := by
  intro t ht
  simp only [discoverAndStore, h] at ht
  by_cases he : dt.isEmpty
  · rw [if_pos he] at ht
    rw [List.isEmpty_iff] at he
    subst he
    simp
  · rw [if_neg he] at ht
    intro hmem
    have h2 : (!dt.contains t.name) = true := (List.mem_filter.mp ht).2
    rw [(contains_eq_memS dt t.name).mpr hmem] at h2
    simp at h2

theorem filter_disabled_tools_sound {tools : List MCPTool} {dt : List String} :
    ∀ t ∈ filter_disabled_tools tools (some dt), t.name ∉ dt := by
  intro t ht
  simp only [filter_disabled_tools] at ht
  by_cases he : dt.isEmpty
  · rw [if_pos he] at ht
    rw [List.isEmpty_iff] at he
    subst he
    simp
  · rw [if_neg he] at ht
    intro hmem
    have h2 : (!dt.contains t.name) = true := (List.mem_filter.mp ht).2
    rw [(contains_eq_memS dt t.name).mpr hmem] at h2
    simp at h2

/-- C5: for a server with a disabled-tool-name set, catalog assembly
(the collector's per-server step: cached `list_tools` plus the
collector's own filter) never returns a disabled descriptor — for EVERY
cache state, so in particular on a cache hit against an entry populated
by a different server with the same command/args and a different
disabled set; and on any fresh discovery (cache miss) the list returned
and stored by `list_tools` is already filtered. -/
theorem spec_C5 (discover : MCPServer → List MCPTool) (now : Int)
    (st : MCPServiceState) (server : MCPServer) (dt : List String)
    (h : server.disabled_tools = some dt) :
    (∀ t ∈ (collectServerTools discover now st server).1, t.name ∉ dt) ∧
    ((list_tools discover now st server).2.2 = true →
      ∀ t ∈ (list_tools discover now st server).1, t.name ∉ dt) := by
  constructor
  · intro t ht
    simp only [collectServerTools, h] at ht
    exact filter_disabled_tools_sound t ht
  · intro hfresh t ht
    simp only [list_tools] at hfresh ht
    cases hc : (if is_cache_valid st now (get_server_key server) then
        lookupS st.toolCache (get_server_key server) else none) with
    | some cached =>
      rw [hc] at hfresh
      simp at hfresh
    | none =>
      rw [hc] at ht
      exact discoverAndStore_filtered h t ht

/-- C5 witness: with disabled set `["a"]` and a discovery returning tools
named `a` and `b`, the per-server catalog step returns only `b`. -/
theorem spec_C5_witness : exToolB.name ∉ ["a"] :=
  (spec_C5 exDiscoverAB 0 emptyServiceState exServerA ["a"] rfl).1 exToolB
    (by exact List.Mem.head _)

/-- C6: the cache key depends only on (command, args) — two servers with
identical launch parameters share one entry regardless of id; a lookup
whose stored timestamp is less than five minutes old returns the stored
sequence unchanged, touching neither state nor discovery; a lookup at or
past the TTL re-invokes discovery and stores the fresh result under the
key with timestamp `now`. -/
theorem spec_C6 (discover : MCPServer → List MCPTool) (now : Int)
    (st : MCPServiceState) (server : MCPServer) :
    (∀ s1 s2 : MCPServer, s1.command = s2.command → s1.args = s2.args →
      get_server_key s1 = get_server_key s2) ∧
    (∀ t cached, lookupS st.cacheTtl (get_server_key server) = some t →
      now - t < cache_duration →
      lookupS st.toolCache (get_server_key server) = some cached →
      list_tools discover now st server = (cached, st, false)) ∧
    (∀ t, lookupS st.cacheTtl (get_server_key server) = some t →
      cache_duration ≤ now - t →
      (list_tools discover now st server).2.2 = true ∧
      lookupS (list_tools discover now st server).2.1.cacheTtl (get_server_key server) =
        some now ∧
      lookupS (list_tools discover now st server).2.1.toolCache (get_server_key server) =
        some (list_tools discover now st server).1) := by
  refine ⟨?_, ?_, ?_⟩
  · intro s1 s2 h1 h2
    simp only [get_server_key, h1, h2]
  · intro t cached ht hlt hcache
    have hv : is_cache_valid st now (get_server_key server) = true := by
      simp only [is_cache_valid, ht]
      exact decide_eq_true hlt
    simp only [list_tools, hv, if_true, hcache]
  · intro t ht hge
    have hv : is_cache_valid st now (get_server_key server) = false := by
      simp only [is_cache_valid, ht]
      exact decide_eq_false (by omega)
    simp only [list_tools, hv, if_false, discoverAndStore]
    exact ⟨rfl, lookupS_setKV_self _ _ _, lookupS_setKV_self _ _ _⟩

/-- C6 witness: a hit 10 seconds after storage returns the cached list
with untouched state and no discovery. -/
theorem spec_C6_witness :
    list_tools exDiscoverAB 10 exStC6 exServerPlain = ([exToolB], exStC6, false) :=
  (spec_C6 exDiscoverAB 10 exStC6 exServerPlain).2.1 0 [exToolB] rfl (by decide) rfl

/-- C10: calling the orchestrator with `maxIterations = 0` raises
(UnboundLocalError: the loop body never runs, so the final
`return llm_response` reads an unassigned local) after issuing zero
model-completion calls, instead of returning a chat response. -/
theorem spec_C10 (llm : List (String × String) → Except String String)
    (configs : String → Option MCPServer)
    (invoke : MCPServer → String → List (String × Json) → Except String RawResult)
    (discover : MCPServer → List MCPTool) (now : Int)
    (messages : List ChatMessage) (enabled_servers : List MCPServer) :
    complete_mcp_workflow llm configs invoke discover now messages enabled_servers 0 =
      (PyOutcome.exn "UnboundLocalError: local variable llm_response referenced before assignment",
        0) := rfl

theorem parseToolUseGo_spec :
    ∀ (ms : List (List Char × List Char)) (i : Nat) (l : List ToolParseResult),
      parseToolUseGo i ms = Except.ok l →
      l.map (fun r => (r.tool.id, r.tool.name, r.tool.arguments)) =
        (enumFromL i ms).filterMap blockIntent := by
  intro ms
  induction ms with
  | nil =>
    intro i l h
    simp only [parseToolUseGo] at h
    cases h
    rfl
  | cons m rest ih =>
    intro i l h
    obtain ⟨nm, ps⟩ := m
    cases hj : json_loads (pyStrip (pyStrip ps)) with
    | none =>
      rw [parseToolUseGo, hj] at h
      have := ih (i + 1) l h
      simp only [enumFromL, List.filterMap_cons, blockIntent, hj]
      exact this
    | some v =>
      cases v with
      | obj kvs =>
        rw [parseToolUseGo, hj] at h
        cases hrec : parseToolUseGo (i + 1) rest with
        | ok l2 =>
          rw [hrec] at h
          cases h
          simp only [List.map_cons, enumFromL, List.filterMap_cons, blockIntent, hj]
          rw [ih (i + 1) l2 hrec]
        | error e =>
          rw [hrec] at h
          cases h
      | null => rw [parseToolUseGo, hj] at h; cases h
      | bool b => rw [parseToolUseGo, hj] at h; cases h
      | num s => rw [parseToolUseGo, hj] at h; cases h
      | str s => rw [parseToolUseGo, hj] at h; cases h
      | arr xs => rw [parseToolUseGo, hj] at h; cases h

/-- C1 (amended): whenever `parse` returns normally it yields, in
document order, exactly one intent per matched block whose (twice
stripped) parameters decode to a JSON object — blocks with invalid JSON
are dropped while valid siblings still parse — but each intent's id is
`call_i` with `i` the block's index among ALL regex matches, so a
malformed block occupies an index and the following valid block's id
skips it (ids are consecutive `call_0..call_{m-1}` only when no dropped
block precedes a valid one). -/
theorem spec_C1 (content : String) (l : List ToolParseResult)
    (h : parse_tool_use content = Except.ok l) :
    l.map (fun r => (r.tool.id, r.tool.name, r.tool.arguments)) =
      (enumFromL 0 (findToolUseBlocks content.data.length content.data)).filterMap
        blockIntent :=
  parseToolUseGo_spec (findToolUseBlocks content.data.length content.data) 0 l h

/-- C1 counterexample: two blocks, the first with malformed JSON; the
single intent returned carries id `call_1`, not the claimed `call_0`. -/
theorem spec_C1_counterexample :
    (parse_tool_use exC1Text).toOption.map (fun l => l.map (fun r => r.tool.id)) =
        some ["call_1"] ∧
      "call_1" ≠ "call_0" :=
  ⟨rfl, by decide⟩

/-- C1 witness: the amended statement evaluated on the two-block text. -/
theorem spec_C1_witness :
    ([{ id := "parse_1", tool := { id := "call_1", name := "b", arguments := [] } }] :
        List ToolParseResult).map (fun r => (r.tool.id, r.tool.name, r.tool.arguments)) =
      (enumFromL 0 (findToolUseBlocks exC1Text.data.length exC1Text.data)).filterMap
        blockIntent :=
  spec_C1 exC1Text
    [{ id := "parse_1", tool := { id := "call_1", name := "b", arguments := [] } }] rfl

/-- C9: the block matcher can only produce name and parameter groups free
of `<` (the pattern's `[^<]` classes), so a block whose parameters text
contains `<` — such as the valid JSON object in `exC9Text` — is never
recognized and yields no intent. -/
theorem spec_C9 :
    (∀ s nm ps rest, matchToolUseAt s = some (nm, ps, rest) →
      '<' ∉ nm ∧ '<' ∉ ps) ∧
    parse_tool_use exC9Text = Except.ok [] := by
  constructor
  · intro s nm ps rest h
    unfold matchToolUseAt at h
    split at h
    · simp at h
    split at h
    · simp at h
    split at h
    · simp at h
    split at h
    · simp at h
    split at h
    · simp at h
    split at h
    · simp at h
    dsimp only at h
    split at h
    · simp at h
    rw [Option.some_inj] at h
    simp only [Prod.mk.injEq] at h
    obtain ⟨h1, h2, h3⟩ := h
    subst h1
    subst h2
    constructor
    · intro hmem
      have := mem_takeWhile_pred notLAngle _ _ hmem
      simp [notLAngle] at this
    · intro hmem
      have := mem_takeWhile_pred notLAngle _ _ hmem
      simp [notLAngle] at this
  · rfl

/-- C9 witness: the matcher property at a concrete successful match. -/
theorem spec_C9_witness : '<' ∉ "t".data ∧ '<' ∉ "\x7b\x7d".data :=
  spec_C9.1 exBlockText.data "t".data "\x7b\x7d".data [] rfl

theorem workflowLoop_calls_le (llm : List (String × String) → Except String String)
    (configs : String → Option MCPServer)
    (invoke : MCPServer → String → List (String × Json) → Except String RawResult)
    (mcp_tools : List MCPTool) :
    ∀ (fuel : Nat) (msgs : List ChatMessage) (last : Option ChatResponse),
      (workflowLoop llm configs invoke mcp_tools fuel msgs last).2 ≤ fuel := by
  intro fuel
  induction fuel with
  | zero =>
    intro msgs last
    simp [workflowLoop]
  | succ n ih =>
    intro msgs last
    rw [workflowLoop]
    split
    · exact Nat.le_add_left 1 n
    · exact Nat.le_add_left 1 n
    · simpa using Nat.add_le_add_right (ih _ _) 1

/-- C2: the orchestrator issues at most `maxIterations` model-completion
calls (the second component of the result counts them), and any round
whose completion text parses to zero tool-call intents returns that
round's completion immediately, with exactly one completion call charged
from that round on. -/
theorem spec_C2 (llm : List (String × String) → Except String String)
    (configs : String → Option MCPServer)
    (invoke : MCPServer → String → List (String × Json) → Except String RawResult)
    (discover : MCPServer → List MCPTool) (now : Int)
    (messages : List ChatMessage) (enabled_servers : List MCPServer)
    (maxIterations : Nat) (_hmax : 1 ≤ maxIterations) :
    ((complete_mcp_workflow llm configs invoke discover now messages enabled_servers
        maxIterations).2 ≤ maxIterations) ∧
    (∀ (fuel : Nat) (msgs : List ChatMessage) (last : Option ChatResponse), 1 ≤ fuel →
      parse_tool_use (run_completions llm msgs
          (collectWorkflowTools discover now enabled_servers)).message.content =
        Except.ok [] →
      workflowLoop llm configs invoke (collectWorkflowTools discover now enabled_servers)
          fuel msgs last =
        (PyOutcome.ok (run_completions llm msgs
          (collectWorkflowTools discover now enabled_servers)), 1)) := by
  constructor
  · exact workflowLoop_calls_le llm configs invoke _ maxIterations messages none
  · intro fuel msgs last hf hp
    cases fuel with
    | zero => omega
    | succ n => rw [workflowLoop, hp]

/-- C2 witness: a prose-only completion ends the workflow after one call,
within the `maxIterations = 3` budget. -/
theorem spec_C2_witness :
    (complete_mcp_workflow exLlmDone exConfigs0 exInvoke0 exDiscover0 0 [] [] 3).2 ≤ 3 ∧
    workflowLoop exLlmDone exConfigs0 exInvoke0 (collectWorkflowTools exDiscover0 0 []) 3 [] none =
      (PyOutcome.ok (run_completions exLlmDone [] (collectWorkflowTools exDiscover0 0 [])), 1) := by
  have h := spec_C2 exLlmDone exConfigs0 exInvoke0 exDiscover0 0 [] [] 3 (by decide)
  exact ⟨h.1, h.2 3 [] none (by decide) rfl⟩

theorem workflowLoop_all_tools
    (llm : List (String × String) → Except String String)
    (configs : String → Option MCPServer)
    (invoke : MCPServer → String → List (String × Json) → Except String RawResult)
    (mcp_tools : List MCPTool)
    (hs : ∀ msgs, ∃ ct tc tcs, llm (processMessages msgs mcp_tools) = Except.ok ct ∧
      parse_tool_use ct = Except.ok (tc :: tcs)) :
    ∀ (n : Nat) (msgs : List ChatMessage) (last : Option ChatResponse),
      workflowLoop llm configs invoke mcp_tools (n + 1) msgs last =
        (PyOutcome.ok (run_completions llm
          ((workflowStep llm configs invoke mcp_tools)^[n] msgs) mcp_tools), n + 1) := by
  intro n
  induction n with
  | zero =>
    intro msgs last
    obtain ⟨ct, tc, tcs, h1, h2⟩ := hs msgs
    have hr : run_completions llm msgs mcp_tools = completionSuccessResponse ct (tc :: tcs) := by
      simp only [run_completions, h1, h2]
    have hpc : parse_tool_use (run_completions llm msgs mcp_tools).message.content =
        Except.ok (tc :: tcs) := by
      rw [hr]
      exact h2
    simp only [workflowLoop, hpc]
    simp [Function.iterate_zero_apply]
  | succ k ih =>
    intro msgs last
    obtain ⟨ct, tc, tcs, h1, h2⟩ := hs msgs
    have hr : run_completions llm msgs mcp_tools = completionSuccessResponse ct (tc :: tcs) := by
      simp only [run_completions, h1, h2]
    have hpc : parse_tool_use (run_completions llm msgs mcp_tools).message.content =
        Except.ok (tc :: tcs) := by
      rw [hr]
      exact h2
    have hstep : workflowStep llm configs invoke mcp_tools msgs =
        appendToolMessages configs invoke mcp_tools msgs
          (run_completions llm msgs mcp_tools) (tc :: tcs) := by
      simp only [workflowStep, hpc]
    conv_lhs => rw [workflowLoop]
    rw [hpc]
    dsimp only
    rw [ih]
    rw [← hstep, ← Function.iterate_succ_apply]

/-- C3: if every round's completion produces at least one tool-call
intent, the orchestrator runs exactly `maxIterations` rounds and returns
the LAST round's completion as the final answer; that response's
`tool_calls_detected` metadata is at least 1, whereas any genuine
no-tool-calls (Done) termination carries `tool_calls_detected = 0` — so
the safety-valve exit is distinguishable via metadata. -/
theorem spec_C3 (llm : List (String × String) → Except String String)
    (configs : String → Option MCPServer)
    (invoke : MCPServer → String → List (String × Json) → Except String RawResult)
    (discover : MCPServer → List MCPTool) (now : Int)
    (messages : List ChatMessage) (enabled_servers : List MCPServer)
    (maxIterations : Nat) (hmax : 1 ≤ maxIterations)
    (hs : ∀ msgs, ∃ ct tc tcs,
      llm (processMessages msgs (collectWorkflowTools discover now enabled_servers)) =
        Except.ok ct ∧
      parse_tool_use ct = Except.ok (tc :: tcs)) :
    (complete_mcp_workflow llm configs invoke discover now messages enabled_servers
        maxIterations =
      (PyOutcome.ok (run_completions llm
        ((workflowStep llm configs invoke
            (collectWorkflowTools discover now enabled_servers))^[maxIterations - 1] messages)
        (collectWorkflowTools discover now enabled_servers)), maxIterations)) ∧
    (∃ k, detectedCount (run_completions llm
        ((workflowStep llm configs invoke
            (collectWorkflowTools discover now enabled_servers))^[maxIterations - 1] messages)
        (collectWorkflowTools discover now enabled_servers)) = some k ∧ 1 ≤ k) ∧
    (∀ msgs ct,
      llm (processMessages msgs (collectWorkflowTools discover now enabled_servers)) =
        Except.ok ct →
      parse_tool_use ct = Except.ok [] →
      detectedCount (run_completions llm msgs
        (collectWorkflowTools discover now enabled_servers)) = some 0) := by
  obtain ⟨m, rfl⟩ : ∃ m, maxIterations = m + 1 :=
    ⟨maxIterations - 1, by omega⟩
  refine ⟨?_, ?_, ?_⟩
  · have h := workflowLoop_all_tools llm configs invoke
      (collectWorkflowTools discover now enabled_servers) hs m messages none
    simpa [complete_mcp_workflow] using h
  · obtain ⟨ct, tc, tcs, h1, h2⟩ := hs
      ((workflowStep llm configs invoke
        (collectWorkflowTools discover now enabled_servers))^[m + 1 - 1] messages)
    refine ⟨(tc :: tcs).length, ?_, by simp⟩
    simp only [run_completions, h1, h2]
    rfl
  · intro msgs ct h1 h2
    simp only [run_completions, h1, h2]
    rfl

/-- C3 witness: with an oracle that always emits one tool-call block and
`maxIterations = 1`, the workflow returns the (only) round's completion
after exactly one completion call. -/
theorem spec_C3_witness :
    complete_mcp_workflow exLlmTools exConfigs0 exInvoke0 exDiscover0 0 [] [] 1 =
      (PyOutcome.ok (run_completions exLlmTools
        ((workflowStep exLlmTools exConfigs0 exInvoke0
            (collectWorkflowTools exDiscover0 0 []))^[0] [])
        (collectWorkflowTools exDiscover0 0 [])), 1) :=
  (spec_C3 exLlmTools exConfigs0 exInvoke0 exDiscover0 0 [] [] 1 (by decide)
    (fun _ => ⟨exBlockText, exParse0, [], rfl, rfl⟩)).1
